import Mathlib

/-!
Verification of the `http_server.py` request/response core: the response
builders, the request-line parsing, and the URI resolver, embedded as pure
Lean functions over an abstract filesystem.

Modelling conventions:
* Python `bytes` values are `List Nat` (one byte per element).
* Python `str` values are Lean `String`; all string manipulation is done on
  the underlying character list so every definition evaluates by `decide`/`rfl`.
* The filesystem is a map from absolute paths (lists of path segments) to
  nodes (directory with its entry names, regular file with its raw bytes, or
  any other object type).
* The process working directory is threaded explicitly: `resolve_uri` takes
  the startup directory and returns, next to its result, the working
  directory the process is left in (the source mutates it with `os.chdir`).
* Python exceptions are `Except` errors tagged with the exception class.
-/

namespace Srv

/-- Python `bytes`: a list of byte values. -/
abbrev Bytes := List Nat

/-- The two-byte line separator `b"\r\n"`. -/
def crlf : Bytes := [13, 10]

/-- Prepends an element to the first block of a list of blocks
(helper for the splitting functions below). -/
def consHead {α : Type} (a : α) : List (List α) → List (List α)
  | l :: ls => (a :: l) :: ls
  | [] => [[a]]

/-- Splits a character list on a separator character, keeping empty pieces
(the semantics of Python `str.split(sep)` for a one-character separator). -/
def splitChar (sep : Char) : List Char → List (List Char)
  | [] => [[]]
  | c :: rest =>
    if c = sep then [] :: splitChar sep rest
    else consHead c (splitChar sep rest)

/-- Splits a character list at every character satisfying `p`, keeping
empty pieces. -/
def splitWhen (p : Char → Bool) : List Char → List (List Char)
  | [] => [[]]
  | c :: rest =>
    if p c then [] :: splitWhen p rest
    else consHead c (splitWhen p rest)

/-- The text before the first `"\r\n"` (the whole text when there is none):
Python `request.split("\r\n", 1)[0]`. -/
def firstLineChars : List Char → List Char
  | '\r' :: '\n' :: _ => []
  | c :: rest => c :: firstLineChars rest
  | [] => []

/-- Python `str.isspace` for the ASCII whitespace characters, the ones
`str.split()` (no argument) splits on. -/
def isPySpace (c : Char) : Bool :=
  c = ' ' || c = '\t' || c = '\n' || c = '\r' || c = '\x0b' || c = '\x0c'

/-- Python `str.split()` with no argument: split on runs of whitespace and
drop empty pieces. -/
def pySplit (cs : List Char) : List String :=
  ((splitWhen isPySpace cs).filter (· ≠ [])).map (fun l => ⟨l⟩)

/-- UTF-8 encoding of one code point. -/
def utf8EncodeCp (c : Nat) : Bytes :=
  if c < 0x80 then [c]
  else if c < 0x800 then [0xC0 + c / 0x40, 0x80 + c % 0x40]
  else if c < 0x10000 then
    [0xE0 + c / 0x1000, 0x80 + c / 0x40 % 0x40, 0x80 + c % 0x40]
  else
    [0xF0 + c / 0x40000, 0x80 + c / 0x1000 % 0x40, 0x80 + c / 0x40 % 0x40,
     0x80 + c % 0x40]

/-- Python `str.encode('utf8')`. -/
def utf8Encode (s : String) : Bytes :=
  (s.toList.map (fun c => utf8EncodeCp c.toNat)).flatten

/-- Recognises a UTF-8 continuation byte. -/
def isCont (b : Nat) : Bool := 0x80 ≤ b && b < 0xC0

/-- Strict UTF-8 decoding to a list of code points, `none` on invalid input
(overlong forms, surrogates, bad leads and truncated sequences rejected, as
Python's `utf-8` codec does). -/
def utf8DecodeCps : Bytes → Option (List Nat)
  | [] => some []
  | b :: rest =>
    if b < 0x80 then (utf8DecodeCps rest).map (b :: ·)
    else if b < 0xC2 then none
    else if b < 0xE0 then
      match rest with
      | c :: rest2 =>
        if isCont c then
          (utf8DecodeCps rest2).map (((b - 0xC0) * 0x40 + (c - 0x80)) :: ·)
        else none
      | [] => none
    else if b < 0xF0 then
      match rest with
      | c :: d :: rest2 =>
        if isCont c && isCont d then
          let cp := (b - 0xE0) * 0x1000 + (c - 0x80) * 0x40 + (d - 0x80)
          if cp < 0x800 || (0xD800 ≤ cp && cp < 0xE000) then none
          else (utf8DecodeCps rest2).map (cp :: ·)
        else none
      | _ => none
    else if b < 0xF5 then
      match rest with
      | c :: d :: e :: rest2 =>
        if isCont c && isCont d && isCont e then
          let cp := (b - 0xF0) * 0x40000 + (c - 0x80) * 0x1000 +
                    (d - 0x80) * 0x40 + (e - 0x80)
          if cp < 0x10000 || 0x110000 ≤ cp then none
          else (utf8DecodeCps rest2).map (cp :: ·)
        else none
      | _ => none
    else none

/-- Universal-newline translation done by Python text-mode reads:
`"\r\n"` and a lone `"\r"` both become `"\n"` (on code points). -/
def univNewlines : List Nat → List Nat
  | 13 :: 10 :: rest => 10 :: univNewlines rest
  | 13 :: rest => 10 :: univNewlines rest
  | c :: rest => c :: univNewlines rest
  | [] => []

/-- Python `open(path, "r").read().encode('utf8')` applied to the raw bytes
of the file: strict UTF-8 decode (a failure is a `UnicodeDecodeError`),
universal-newline translation, UTF-8 re-encode. -/
def textRead (contents : Bytes) : Option Bytes :=
  (utf8DecodeCps contents).map
    (fun cps => ((univNewlines cps).map utf8EncodeCp).flatten)

/-- An absolute filesystem path, as the list of its segments from the
root (so `[]` is `/` and `["home", "user"]` is `/home/user`). -/
abbrev FsPath := List String

/-- POSIX path-segment step: empty segments and `.` are skipped, `..` moves
to the parent (staying at the root when already there), anything else
descends. -/
def addSegment (p : FsPath) (seg : String) : FsPath :=
  if seg = "" || seg = "." then p
  else if seg = ".." then p.dropLast
  else p ++ [seg]

/-- The segments of a path string (split on `/`, empty pieces kept). -/
def pathSegments (cs : List Char) : List String :=
  (splitChar '/' cs).map (fun l => ⟨l⟩)

/-- Resolves a path string against a current directory. -/
def resolveRel (cwd : FsPath) (s : String) : FsPath :=
  (pathSegments s.toList).foldl addSegment cwd

/-- Tests whether a path string is absolute. -/
def startsWithSlash : List Char → Bool
  | '/' :: _ => true
  | _ => false

/-- The directory `os.chdir(dir)` moves to, from current directory `cwd`. -/
def chdirTarget (cwd : FsPath) (dir : String) : FsPath :=
  if startsWithSlash dir.toList then resolveRel [] dir else resolveRel cwd dir

/-- The filesystem path `resolve_uri` consults: the webroot is entered with
`os.chdir(webroot)` and the URI, prefixed with `"."`, is resolved there. -/
def resolvedTarget (startup : FsPath) (webroot uri : String) : FsPath :=
  resolveRel (chdirTarget startup webroot) (String.mk ('.' :: uri.toList))

/-- Python `os.path.basename`: the part after the last `/`. -/
def basename (cs : List Char) : String :=
  (pathSegments cs).getLastD ""

/-- The value of a Python variable holding the result of
`mimetypes.guess_type`: either the object `None` or a 2-tuple
`(type, encoding)` whose components may each be `None`. -/
inductive PyMimeGuess : Type
  | pynone
  | pytuple (t : Option String) (enc : Option String)
deriving DecidableEq

/-- Association list from lower-case filename extension to mimetype.
Modelled from the Python standard library `mimetypes` table (the server
relies on the stdlib module, which is not part of this repository); the
table here is the abridged common core of the stdlib map. -/
def types_map : List (String × String) :=
  [(".txt", "text/plain"), (".html", "text/html"), (".htm", "text/html"),
   (".css", "text/css"), (".csv", "text/csv"), (".js", "text/javascript"),
   (".png", "image/png"), (".jpg", "image/jpeg"), (".jpeg", "image/jpeg"),
   (".gif", "image/gif"), (".pdf", "application/pdf"),
   (".json", "application/json"), (".zip", "application/zip")]

/-- First-match association-list lookup. -/
def lookupType : List (String × String) → String → Option String
  | [], _ => none
  | (k, v) :: rest, e => if k = e then some v else lookupType rest e

/-- Python `os.path.splitext(filename)[1]` for a name with no `/`: the
extension from the last dot, empty when there is no dot or only leading
dots precede it (so `".bashrc"` has no extension). -/
def splitextExt (cs : List Char) : List Char :=
  let r := cs.reverse
  let r1 := r.takeWhile (· ≠ '.')
  match r.dropWhile (· ≠ '.') with
  | [] => []
  | _ :: before => if before.any (· ≠ '.') then '.' :: r1.reverse else []

/-- Modelled from the Python standard library `mimetypes.guess_type` (not
part of this repository): looks the lower-cased extension up in the type
table and always returns a 2-tuple `(type, encoding)` — it never returns
the object `None` itself.  The encoding component (only non-`None` for
compressed suffixes such as `.gz`) is elided to `None`; no claim depends
on it. -/
def guess_type (filename : String) : PyMimeGuess :=
  .pytuple (lookupType types_map ⟨(splitextExt filename.toList).map Char.toLower⟩) none

/-- A filesystem object: a directory with its immediate entry names, a
regular file with its raw bytes, or any other object type (device file,
broken symlink target, ...). -/
inductive FSNode : Type
  | dir (entries : List String)
  | file (contents : Bytes)
  | other
deriving DecidableEq

/-- A filesystem: a partial map from absolute paths to nodes. -/
abbrev FileSystem := FsPath → Option FSNode

/-- The Python exception classes this program can raise. -/
inductive PyError : Type
  | notImplementedError
  | nameError
  | typeError
  | attributeError
  | unicodeDecodeError
  | valueError
deriving DecidableEq

/-- Python `sep.join(list)` for `sep = b"\r\n"`. -/
def crlfJoin : List Bytes → Bytes
  | [] => []
  | [x] => x
  | x :: xs => x ++ crlf ++ crlfJoin xs

/-- Source `response_ok(body, mimetype)`: joins the status line, the
`Content-Type` header, an empty element and the body with `b"\r\n"`. -/
def response_ok (body mimetype : Bytes) : Bytes :=
  crlfJoin [utf8Encode "HTTP/1.1 200 OK",
            utf8Encode "Content-Type: " ++ mimetype, [], body]

/-- Source `response_method_not_allowed()`. -/
def response_method_not_allowed : Bytes :=
  crlfJoin [utf8Encode "HTTP/1.1 405 Method Not Allowed", []]

/-- Source `response_not_found()`. -/
def response_not_found : Bytes :=
  crlfJoin [utf8Encode "HTTP/1.1 404 Not Found", []]

/-- Source `response_unsupported_media_type()`. -/
def response_unsupported_media_type : Bytes :=
  crlfJoin [utf8Encode "HTTP/1.1 415 Unsupported Media Type", []]

/-- Python `glob.glob("*")` in a directory with the given entries: every
immediate entry whose name does not begin with a dot (the `*` pattern never
matches hidden names), in listing order. -/
def glob_star (entries : List String) : List String :=
  entries.filter (fun n =>
    match n.toList with
    | '.' :: _ => false
    | _ => true)

/-- The common epilogue of `resolve_uri`: `os.chdir(startup_dir)` followed by
`return b"\r\n".join(resp), mimetype[0].encode('utf8')`.  When the guessed
type is `None`, evaluating `.encode` on it raises `AttributeError`; the
working directory has already been restored at that point. -/
def finish (resp : List Bytes) (t : Option String) (startup_dir : FsPath) :
    Except PyError (Bytes × Bytes) × FsPath :=
  match t with
  | some m => (.ok (crlfJoin resp, utf8Encode m), startup_dir)
  | none => (.error .attributeError, startup_dir)

/-- Source `resolve_uri(uri, webroot)`.  The second component of the result
is the working directory the process is left in (the caller entered with
working directory `startup_dir`).  Branches, in source order: missing path
restores the directory and raises `NameError`; a directory is listed with
`glob("*")` and answered with mimetype `"text/plain"`; a regular file has
its mimetype guessed from its basename (`None` result of the guess would
raise `TypeError`, a `"text/plain"` guess reads the file in text mode — a
`UnicodeDecodeError` escapes *before* the directory is restored — and any
other guess reads raw bytes); any other object restores the directory and
raises `TypeError`. -/
def resolve_uri (fs : FileSystem) (uri webroot : String) (startup_dir : FsPath) :
    Except PyError (Bytes × Bytes) × FsPath :=
  match fs (resolvedTarget startup_dir webroot uri) with
  | none => (.error .nameError, startup_dir)
  | some (.dir entries) =>
      finish ((glob_star entries).map utf8Encode) (some "text/plain") startup_dir
  | some (.file contents) =>
      match guess_type (basename ('.' :: uri.toList)) with
      | .pynone => (.error .typeError, chdirTarget startup_dir webroot)
      | .pytuple t _enc =>
        if t = some "text/plain" then
          match textRead contents with
          | none => (.error .unicodeDecodeError, chdirTarget startup_dir webroot)
          | some b => finish [b] t startup_dir
        else finish [contents] t startup_dir
  | some .other => (.error .typeError, startup_dir)

/-- Source `parse_request(request)`: take the text before the first
`"\r\n"`, split it on whitespace; anything but exactly three tokens is an
uncaught `ValueError`; a method other than `"GET"` raises
`NotImplementedError`; otherwise the URI token is returned. -/
def parse_request (request : String) : Except PyError String :=
  match pySplit (firstLineChars request.toList) with
  | [method, uri, _protocol] =>
      if method ≠ "GET" then .error .notImplementedError else .ok uri
  | _ => .error .valueError

/-- The per-request part of `server()`: `parse_request` with
`NotImplementedError` answered by the 405 response, then `resolve_uri` with
`NameError` answered by 404 and `TypeError` by 415; every other exception
(`ValueError`, `AttributeError`, `UnicodeDecodeError`) propagates and
crashes the connection handling.  Returns the response (or the uncaught
exception) and the final working directory. -/
def handle_request (fs : FileSystem) (webroot : String) (startup_dir : FsPath)
    (request : String) : Except PyError Bytes × FsPath :=
  match parse_request request with
  | .error .notImplementedError => (.ok response_method_not_allowed, startup_dir)
  | .error e => (.error e, startup_dir)
  | .ok uri =>
    match resolve_uri fs uri webroot startup_dir with
    | (.ok (content, mime_type), p) => (.ok (response_ok content mime_type), p)
    | (.error .nameError, p) => (.ok response_not_found, p)
    | (.error .typeError, p) => (.ok response_unsupported_media_type, p)
    | (.error e, p) => (.error e, p)

instance {ε α : Type} [DecidableEq ε] [DecidableEq α] : DecidableEq (Except ε α) :=
  fun a b =>
    match a, b with
    | .ok x, .ok y =>
      if h : x = y then isTrue (by rw [h])
      else isFalse (by intro hh; cases hh; exact h rfl)
    | .error x, .error y =>
      if h : x = y then isTrue (by rw [h])
      else isFalse (by intro hh; cases hh; exact h rfl)
    | .ok _, .error _ => isFalse (fun hh => Except.noConfusion hh)
    | .error _, .ok _ => isFalse (fun hh => Except.noConfusion hh)

/-! Structural response reading, as the round-trip property describes it:
split the byte sequence at the first blank line (`\r\n\r\n`) into a header
block and a body, split the header block into `\r\n`-separated lines, read
the first line as the status line and the value of the first
`Content-Type: ` header line. -/

/-- The blank-line separator `b"\r\n\r\n"`. -/
def blankLine : Bytes := [13, 10, 13, 10]

/-- Splits at the first occurrence of the blank line: returns the bytes
before it and the bytes after it, or `none` when it never occurs. -/
def findBlank : Bytes → Option (Bytes × Bytes)
  | [] => none
  | b :: rest =>
    if b = 13 ∧ rest.take 3 = [10, 13, 10] then some ([], rest.drop 3)
    else
      match findBlank rest with
      | some (pre, post) => some (b :: pre, post)
      | none => none

/-- Splits a byte sequence into its `\r\n`-separated lines. -/
def splitLines : Bytes → List Bytes
  | [] => [[]]
  | [c] => [[c]]
  | c :: d :: rest =>
    if c = 13 ∧ d = 10 then [] :: splitLines rest
    else consHead c (splitLines (d :: rest))

/-- The header-name bytes of `b"Content-Type: "`. -/
def ctHeader : Bytes := utf8Encode "Content-Type: "

/-- The value of the first `Content-Type: ` line, if any. -/
def contentTypeOf (lines : List Bytes) : Option Bytes :=
  match lines.find? (fun l => l.take 14 == ctHeader) with
  | some l => some (l.drop 14)
  | none => none

/-- Structural response reading: status line, optional `Content-Type`
value, body. -/
def parseResponse (resp : Bytes) : Option (Bytes × Option Bytes × Bytes) :=
  match findBlank resp with
  | none => none
  | some (header, body) =>
    match splitLines header with
    | status :: rest => some (status, contentTypeOf rest, body)
    | [] => none

/-- The status-line bytes of a 200 response. -/
def statusOK : Bytes := utf8Encode "HTTP/1.1 200 OK"

/-- The header bytes of a 200 response up to (excluding) the mimetype. -/
def hdrPre : Bytes := statusOK ++ crlf ++ ctHeader

/-! Concrete filesystems used to evaluate the definitions. -/

/-- A webroot `/w` holding one regular file `a.xyz` whose extension has no
mimetype mapping. -/
def exFs1 : FileSystem := fun p =>
  if p = ["w"] then some (.dir ["a.xyz"])
  else if p = ["w", "a.xyz"] then some (.file [1, 2, 3])
  else none

/-- A root directory holding a sibling of the webroot `/w`, to probe `..`
traversal: the root itself lists a `secret` entry. -/
def exFs2 : FileSystem := fun p =>
  if p = [] then some (.dir ["secret"])
  else if p = ["w"] then some (.dir [])
  else none

/-- A webroot `/w` whose directory holds a plain entry and a hidden one. -/
def exFs3 : FileSystem := fun p =>
  if p = ["w"] then some (.dir ["a", ".h"])
  else none

/-- A webroot `/w` holding a binary file `i.png` and a text file `a.txt`
whose bytes are `"h\r\ni"`. -/
def exFs4 : FileSystem := fun p =>
  if p = ["w"] then some (.dir ["i.png", "a.txt"])
  else if p = ["w", "i.png"] then some (.file [1, 2, 3])
  else if p = ["w", "a.txt"] then some (.file [104, 13, 10, 105])
  else none

/-- A webroot `/w` holding a text file `a.txt` whose single byte `0xFF` is
not valid UTF-8. -/
def exFs5 : FileSystem := fun p =>
  if p = ["w"] then some (.dir ["a.txt"])
  else if p = ["w", "a.txt"] then some (.file [255])
  else none

/-! Helper lemmas. -/

/-- The mimetype guess is always a 2-tuple, never the object `None`. -/
lemma guess_type_ne_pynone (f : String) : guess_type f ≠ PyMimeGuess.pynone := by
  simp [guess_type]

/-- Folding path segments that never contain `..` only ever extends the
current directory. -/
lemma foldl_addSegment_extends (segs : List String) (cwd : FsPath)
    (h : ".." ∉ segs) : cwd <+: segs.foldl addSegment cwd := by
  induction segs generalizing cwd with
  | nil => exact List.prefix_refl _
  | cons s segs ih =>
    have hs : s ≠ ".." := fun hc => h (by simp [hc])
    have htail : ".." ∉ segs := fun hc => h (by simp [hc])
    have hstep : cwd <+: addSegment cwd s := by
      unfold addSegment
      by_cases h1 : s = "" || s = "."
      · rw [if_pos h1]
      · rw [if_neg h1, if_neg (by simpa using hs)]
        exact List.prefix_append _ _
    exact hstep.trans (ih (addSegment cwd s) htail)

/-- A list whose first three elements are known splits off them. -/
lemma take3_eq (l : Bytes) (x y z : Nat) (h : l.take 3 = [x, y, z]) :
    ∃ t, l = x :: y :: z :: t := by
  match l with
  | [] => simp at h
  | [a] => simp at h
  | [a, b] => simp at h
  | a :: b :: c :: t =>
    have h' : a = x ∧ b = y ∧ c = z := by simpa using h
    exact ⟨t, by rw [h'.1, h'.2.1, h'.2.2]⟩

/-- A suffix of an append is a suffix of the right part or a nonempty
suffix of the left part followed by the whole right part. -/
lemma suffix_append_cases {α : Type} (q a b : List α) (h : q <:+ a ++ b) :
    q <:+ b ∨ ∃ q1, q1 <:+ a ∧ q1 ≠ [] ∧ q = q1 ++ b := by
  induction a with
  | nil => left; simpa using h
  | cons x a' ih =>
    rw [List.cons_append] at h
    rcases List.suffix_cons_iff.mp h with heq | hsuf
    · right
      exact ⟨x :: a', List.suffix_refl _, by simp, by simpa using heq⟩
    · rcases ih hsuf with hb | ⟨q1, hq1, hne, heq⟩
      · left; exact hb
      · right; exact ⟨q1, hq1.trans (List.suffix_cons x a'), hne, heq⟩

/-- A nonempty list that does not start with byte 13 is not extended into
one starting with `[13, 10]`. -/
lemma head_ne_13_no_pair (q X : Bytes) (hh : q.head? ≠ some 13) (hne : q ≠ []) :
    ¬ ([13, 10] <+: q ++ X) := by
  cases q with
  | nil => exact absurd rfl hne
  | cons c t =>
    intro hp
    rw [List.cons_append] at hp
    exact hh (by simp [(List.cons_prefix_cons.mp hp).1.symm])

/-! Claim C1: for a regular file whose extension has no mimetype mapping,
the unsupported-media-type `TypeError` is claimed; the code instead reaches
`mimetype[0].encode('utf8')` with `None` and raises `AttributeError`, which
the handler does not catch. -/

/-- C1: evaluating the resolver and the handler on a webroot `/w` holding
only `a.xyz` (an extension with no mimetype mapping): `resolve_uri` raises
`AttributeError`, not the `TypeError` the unsupported-media-type path would
need, so the handler propagates the exception instead of answering 415. -/
theorem C1_unknown_extension_attribute_error :
    resolve_uri exFs1 "/a.xyz" "/w" [] =
      (Except.error PyError.attributeError, ([] : FsPath)) ∧
    handle_request exFs1 "/w" [] "GET /a.xyz HTTP/1.1\r\n\r\n" =
      (Except.error PyError.attributeError, ([] : FsPath)) :=
  ⟨rfl, rfl⟩

/-! Claim C2: the `"."` prefix is claimed to keep every resolved path a
descendant of the webroot, including for URIs with `..` segments.  A `..`
segment escapes: `/..` resolves to the webroot's parent. -/

/-- C2 counterexample: with webroot `/w`, the URI `/..` makes `resolve_uri`
consult the filesystem root `/`, which is not a descendant of `/w`; on a
filesystem whose root holds a `secret` entry, the escaped lookup serves
that listing. -/
theorem C2_counterexample :
    resolvedTarget [] "/w" "/.." = ([] : FsPath) ∧
    ¬ ((["w"] : FsPath) <+: ([] : FsPath)) ∧
    resolve_uri exFs2 "/.." "/w" [] =
      (Except.ok (utf8Encode "secret", utf8Encode "text/plain"), ([] : FsPath)) :=
  ⟨rfl, by simp, rfl⟩

/-- C2 amended: for every URI none of whose slash-separated segments (after
the `"."` prefixing) is `..`, the path `resolve_uri` consults is a
descendant of the resolved webroot; the `"."` prefix defeats only
absolute-looking URIs, not `..` traversal. -/
theorem C2_amended_jail_without_dotdot (startup : FsPath) (webroot uri : String)
    (h : ".." ∉ pathSegments ('.' :: uri.toList)) :
    chdirTarget startup webroot <+: resolvedTarget startup webroot uri := by
  unfold resolvedTarget resolveRel
  exact foldl_addSegment_extends _ _ h

/-- C2 witness: a dot-free URI stays under the webroot. -/
theorem C2_witness :
    chdirTarget [] "/w" <+: resolvedTarget [] "/w" "/index.html" :=
  C2_amended_jail_without_dotdot [] "/w" "/index.html" (by decide)

/-! Claim C3: the response layout.  `response_ok` does have the layout
status line, CRLF, Content-Type, CRLF, blank line, body — but the canned
404/405/415 responses end in a single CRLF (`b"\r\n".join([status, b""])`),
not in the claimed CRLF CRLF. -/

/-- C3 counterexample: the canned 404 response does not end with the blank
line CRLF CRLF the claimed layout requires before its empty body. -/
theorem C3_counterexample : ¬ ((crlf ++ crlf) <:+ response_not_found) := by
  decide

/-- C3 amended: `response_ok` is STATUS CRLF `Content-Type: `·mimetype CRLF
CRLF body, while each canned error response is its status line followed by
one single CRLF and nothing else (no blank line before the empty body). -/
theorem C3_amended_layout :
    (∀ body mimetype, response_ok body mimetype =
      utf8Encode "HTTP/1.1 200 OK" ++ crlf ++ utf8Encode "Content-Type: " ++
        mimetype ++ crlf ++ crlf ++ body) ∧
    response_method_not_allowed = utf8Encode "HTTP/1.1 405 Method Not Allowed" ++ crlf ∧
    response_not_found = utf8Encode "HTTP/1.1 404 Not Found" ++ crlf ∧
    response_unsupported_media_type =
      utf8Encode "HTTP/1.1 415 Unsupported Media Type" ++ crlf := by
  refine ⟨fun body mimetype => ?_, rfl, rfl, rfl⟩
  simp [response_ok, crlfJoin, List.append_assoc]

/-! Claim C4: a directory listing is claimed to contain exactly the names
of all immediate entries.  `glob.glob("*")` skips names beginning with a
dot, so hidden entries are missing from the body. -/

/-- C4 counterexample: a webroot directory with entries `a` and `.h` is
served with a body whose only line is `a`; the hidden entry `.h` is not
among the body's lines. -/
theorem C4_counterexample :
    resolve_uri exFs3 "/" "/w" [] =
      (Except.ok (utf8Encode "a", utf8Encode "text/plain"), ([] : FsPath)) ∧
    utf8Encode ".h" ∉ splitLines (utf8Encode "a") ∧ ".h" ∈ ["a", ".h"] :=
  ⟨rfl, by decide, by decide⟩

/-- C4 amended: for every existing directory, the body is the CRLF-join of
the UTF-8 encoded names of exactly those immediate entries that do not
begin with a dot (hidden entries are omitted by the glob), in listing
order, and the mimetype is `text/plain`; the working directory is
restored. -/
theorem C4_amended_directory_listing (fs : FileSystem) (uri webroot : String)
    (startup : FsPath) (entries : List String)
    (h : fs (resolvedTarget startup webroot uri) = some (FSNode.dir entries)) :
    resolve_uri fs uri webroot startup =
      (Except.ok (crlfJoin ((glob_star entries).map utf8Encode),
        utf8Encode "text/plain"), startup) := by
  simp [resolve_uri, h, finish]

/-- C4 witness: the amended statement evaluated on the webroot with a
hidden entry. -/
theorem C4_witness :
    resolve_uri exFs3 "/" "/w" [] =
      (Except.ok (crlfJoin ((glob_star ["a", ".h"]).map utf8Encode),
        utf8Encode "text/plain"), ([] : FsPath)) :=
  C4_amended_directory_listing exFs3 "/" "/w" [] ["a", ".h"] rfl

/-! Claim C5: recognized-extension files are served with their exact bytes
(text-mode decode and UTF-8 re-encode for `text/plain`) and the guessed
mimetype. -/

/-- C5: for an existing regular file whose extension guess yields a
mimetype, the resolver returns the raw file bytes for a non-`text/plain`
guess, and the text-mode decode/re-encode of the bytes for a `text/plain`
guess (provided the bytes decode), always paired with the UTF-8 encoding of
the guessed mimetype, restoring the working directory. -/
theorem C5_file_content (fs : FileSystem) (uri webroot : String)
    (startup : FsPath) (c : Bytes) (m : String) (e : Option String)
    (hf : fs (resolvedTarget startup webroot uri) = some (FSNode.file c))
    (hg : guess_type (basename ('.' :: uri.toList)) = PyMimeGuess.pytuple (some m) e) :
    (m ≠ "text/plain" →
      resolve_uri fs uri webroot startup = (Except.ok (c, utf8Encode m), startup)) ∧
    (∀ b, m = "text/plain" → textRead c = some b →
      resolve_uri fs uri webroot startup = (Except.ok (b, utf8Encode m), startup)) := by
  constructor
  · intro hm
    simp only [resolve_uri, hf, hg]
    rw [if_neg (by simp [hm])]
    simp [finish, crlfJoin]
  · intro b hm htr
    subst hm
    simp only [resolve_uri, hf, hg, htr]
    simp [finish, crlfJoin]

/-- C5 witness: a binary file is served raw with mimetype `image/png`; a
text file with bytes `"h\r\ni"` is served as `"h\ni"` (universal newlines)
with mimetype `text/plain`. -/
theorem C5_witness :
    resolve_uri exFs4 "/i.png" "/w" [] =
      (Except.ok (([1, 2, 3] : Bytes), utf8Encode "image/png"), ([] : FsPath)) ∧
    resolve_uri exFs4 "/a.txt" "/w" [] =
      (Except.ok (([104, 10, 105] : Bytes), utf8Encode "text/plain"), ([] : FsPath)) :=
  ⟨(C5_file_content exFs4 "/i.png" "/w" [] [1, 2, 3] "image/png" none rfl rfl).1
      (by decide),
   (C5_file_content exFs4 "/a.txt" "/w" [] [104, 13, 10, 105] "text/plain" none rfl rfl).2
      [104, 10, 105] rfl (by decide)⟩

/-! Claim C6: the parser returns the URI exactly when the method token is
`GET` and raises the unsupported-method condition exactly otherwise, the
handler answering 405. -/

/-- C6: when the first request line has exactly three whitespace-separated
tokens, `parse_request` returns the URI token for method `GET`, and raises
`NotImplementedError` if and only if the method is not `GET`, in which case
the handler answers with the 405 response. -/
theorem C6_three_token_request_line (request m u p : String)
    (h : pySplit (firstLineChars request.toList) = [m, u, p]) :
    (m = "GET" → parse_request request = Except.ok u) ∧
    (m ≠ "GET" ↔ parse_request request = Except.error PyError.notImplementedError) ∧
    (∀ fs webroot startup, m ≠ "GET" →
      handle_request fs webroot startup request =
        (Except.ok response_method_not_allowed, startup)) := by
  have hp : parse_request request =
      if m ≠ "GET" then Except.error PyError.notImplementedError else Except.ok u := by
    simp only [parse_request, h]
  refine ⟨?_, ⟨?_, ?_⟩, ?_⟩
  · intro hm
    rw [hp, if_neg (by simp [hm])]
  · intro hm
    rw [hp, if_pos hm]
  · intro he
    intro hm
    rw [hp, if_neg (by simp [hm])] at he
    exact Except.noConfusion he
  · intro fs webroot startup hm
    simp only [handle_request, hp, if_pos hm]

/-- C6 witness: a POST request with three tokens is rejected with
`NotImplementedError` and answered 405. -/
theorem C6_witness :
    parse_request "POST /a.txt HTTP/1.1\r\n\r\n" =
      Except.error PyError.notImplementedError ∧
    handle_request exFs1 "/w" [] "POST /a.txt HTTP/1.1\r\n\r\n" =
      (Except.ok response_method_not_allowed, ([] : FsPath)) :=
  ⟨(C6_three_token_request_line "POST /a.txt HTTP/1.1\r\n\r\n" "POST" "/a.txt"
      "HTTP/1.1" (by decide)).2.1.mp (by decide),
   (C6_three_token_request_line "POST /a.txt HTTP/1.1\r\n\r\n" "POST" "/a.txt"
      "HTTP/1.1" (by decide)).2.2 exFs1 "/w" [] (by decide)⟩

/-! Claim C8: the working directory is claimed restored on every exit
path.  It is restored on normal return and on the `NameError`, `TypeError`
and `AttributeError` paths — but a `UnicodeDecodeError` while reading a
`text/plain` file escapes before `os.chdir(startup_dir)` and leaves the
process in the webroot. -/

/-- C8 counterexample: resolving a `text/plain` file whose bytes are not
valid UTF-8 raises `UnicodeDecodeError` with the working directory left at
the webroot `/w`, not restored to the startup directory `/`. -/
theorem C8_counterexample :
    resolve_uri exFs5 "/a.txt" "/w" [] =
      (Except.error PyError.unicodeDecodeError, (["w"] : FsPath)) ∧
    (["w"] : FsPath) ≠ ([] : FsPath) :=
  ⟨rfl, by decide⟩

/-- C8 amended: on every exit path except the UTF-8 decode failure the
working directory is restored to its entry value; on the decode-failure
path it is left at the webroot. -/
theorem C8_amended_chdir_restore (fs : FileSystem) (uri webroot : String)
    (startup : FsPath) :
    ((resolve_uri fs uri webroot startup).1 ≠ Except.error PyError.unicodeDecodeError →
      (resolve_uri fs uri webroot startup).2 = startup) ∧
    ((resolve_uri fs uri webroot startup).1 = Except.error PyError.unicodeDecodeError →
      (resolve_uri fs uri webroot startup).2 = chdirTarget startup webroot) := by
  cases hfs : fs (resolvedTarget startup webroot uri) with
  | none =>
    refine ⟨fun _ => ?_, fun he => ?_⟩
    · simp [resolve_uri, hfs]
    · simp [resolve_uri, hfs] at he
  | some node =>
    cases node with
    | dir entries =>
      refine ⟨fun _ => ?_, fun he => ?_⟩
      · simp [resolve_uri, hfs, finish]
      · simp [resolve_uri, hfs, finish] at he
    | file c =>
      cases hg : guess_type (basename ('.' :: uri.data)) with
      | pynone => exact absurd hg (guess_type_ne_pynone _)
      | pytuple t e =>
        by_cases ht : t = some "text/plain"
        · subst ht
          cases htr : textRead c with
          | none =>
            refine ⟨fun hne => absurd ?_ hne, fun _ => ?_⟩
            · simp [resolve_uri, hfs, hg, htr]
            · simp [resolve_uri, hfs, hg, htr]
          | some b =>
            refine ⟨fun _ => ?_, fun he => ?_⟩
            · simp [resolve_uri, hfs, hg, htr, finish]
            · simp [resolve_uri, hfs, hg, htr, finish] at he
        · cases t with
          | none =>
            refine ⟨fun _ => ?_, fun he => ?_⟩
            · simp [resolve_uri, hfs, hg, finish]
            · simp [resolve_uri, hfs, hg, finish] at he
          | some m =>
            have hm : m ≠ "text/plain" := fun hc => ht (by rw [hc])
            refine ⟨fun _ => ?_, fun he => ?_⟩
            · simp [resolve_uri, hfs, hg, finish, hm]
            · simp [resolve_uri, hfs, hg, finish, hm] at he
    | other =>
      refine ⟨fun _ => ?_, fun he => ?_⟩
      · simp [resolve_uri, hfs]
      · simp [resolve_uri, hfs] at he

/-- C8 witness: a successful binary serve restores the startup directory,
and the decode-failure case lands in the webroot. -/
theorem C8_witness :
    (resolve_uri exFs4 "/i.png" "/w" []).2 = ([] : FsPath) ∧
    (resolve_uri exFs5 "/a.txt" "/w" []).2 = chdirTarget [] "/w" :=
  ⟨(C8_amended_chdir_restore exFs4 "/i.png" "/w" []).1 (by decide),
   (C8_amended_chdir_restore exFs5 "/a.txt" "/w" []).2 (by decide)⟩

/-! Claim C9: the `mimetype is None` branch of `resolve_uri` is dead code:
the guess is always a 2-tuple, so a regular file never yields `TypeError`,
and an unrecognized extension reaches the final encode of `None` and
raises `AttributeError`. -/

/-- C9: the mimetype guess never returns the object `None`, so for a
regular file `resolve_uri` can never raise the in-branch `TypeError`; for
an unrecognized extension (guess `(None, enc)`) it instead reaches
`mimetype[0].encode('utf8')` and raises `AttributeError`. -/
theorem C9_none_branch_unreachable :
    (∀ f, guess_type f ≠ PyMimeGuess.pynone) ∧
    (∀ (fs : FileSystem) (uri webroot : String) (startup : FsPath) (c : Bytes),
      fs (resolvedTarget startup webroot uri) = some (FSNode.file c) →
      (resolve_uri fs uri webroot startup).1 ≠ Except.error PyError.typeError) ∧
    (∀ (fs : FileSystem) (uri webroot : String) (startup : FsPath) (c : Bytes)
      (e : Option String),
      fs (resolvedTarget startup webroot uri) = some (FSNode.file c) →
      guess_type (basename ('.' :: uri.toList)) = PyMimeGuess.pytuple none e →
      (resolve_uri fs uri webroot startup).1 = Except.error PyError.attributeError) := by
  refine ⟨guess_type_ne_pynone, ?_, ?_⟩
  · intro fs uri webroot startup c hf
    cases hg : guess_type (basename ('.' :: uri.data)) with
    | pynone => exact absurd hg (guess_type_ne_pynone _)
    | pytuple t e =>
      by_cases ht : t = some "text/plain"
      · subst ht
        cases htr : textRead c with
        | none => simp [resolve_uri, hf, hg, htr]
        | some b => simp [resolve_uri, hf, hg, htr, finish]
      · cases t with
        | none => simp [resolve_uri, hf, hg, finish]
        | some m =>
          have hm : m ≠ "text/plain" := fun hc => ht (by rw [hc])
          simp [resolve_uri, hf, hg, finish, hm]
  · intro fs uri webroot startup c e hf hg
    have hg2 : guess_type (basename ('.' :: uri.data)) = PyMimeGuess.pytuple none e := hg
    simp [resolve_uri, hf, hg2, finish]

/-- C9 witness: the unreachable-branch consequence evaluated on the webroot
holding `a.xyz`. -/
theorem C9_witness :
    (resolve_uri exFs1 "/a.xyz" "/w" []).1 = Except.error PyError.attributeError :=
  C9_none_branch_unreachable.2.2 exFs1 "/a.xyz" "/w" [] [1, 2, 3] none rfl rfl

/-! Claim C10: `parse_request` depends only on the text before the first
CRLF. -/

/-- C10: two request strings with the same text before the first `"\r\n"`
parse to the same outcome (same URI or same raised condition). -/
theorem C10_first_line_determines (r1 r2 : String)
    (h : firstLineChars r1.toList = firstLineChars r2.toList) :
    parse_request r1 = parse_request r2 := by
  simp only [parse_request, h]

/-- C10 witness: trailing headers do not change the parsed URI. -/
theorem C10_witness :
    parse_request "GET /x HTTP/1.1" = parse_request "GET /x HTTP/1.1\r\nHost: example" :=
  C10_first_line_determines _ _ (by decide)

/-! Claim C7: the round trip through the structural response reading.  It
holds whenever the mimetype bytes contain no CRLF pair; a mimetype holding
a CRLF shifts the first blank line and corrupts both the recovered
Content-Type value and the recovered body. -/

/-- In a byte sequence built as `pre ++ blank ++ post` where no nonempty
suffix of `pre` begins an occurrence of the blank line, the first blank
line is the explicit one. -/
lemma findBlank_eq (pre post : Bytes)
    (h : ∀ q, q <:+ pre → q ≠ [] → ¬ (blankLine <+: q ++ blankLine ++ post)) :
    findBlank (pre ++ blankLine ++ post) = some (pre, post) := by
  induction pre with
  | nil => simp [findBlank, blankLine]
  | cons a pre ih =>
    have hcond : ¬ (a = 13 ∧ (pre ++ blankLine ++ post).take 3 = [10, 13, 10]) := by
      rintro ⟨ha, ht⟩
      obtain ⟨t, htail⟩ := take3_eq _ _ _ _ ht
      refine h (a :: pre) (List.suffix_refl _) (by simp) ?_
      subst ha
      rw [List.cons_append, List.cons_append, htail]
      exact ⟨t, rfl⟩
    have ih' := ih (fun q hq hne => h q (hq.trans (List.suffix_cons a pre)) hne)
    have hl : (a :: pre) ++ blankLine ++ post = a :: (pre ++ blankLine ++ post) := by
      simp
    rw [hl]
    simp only [findBlank]
    rw [if_neg hcond, ih']

/-- A byte sequence with no CRLF pair starting in any of its suffixes is a
single line. -/
lemma splitLines_single (l : Bytes) (h : ∀ q, q <:+ l → ¬ ([13, 10] <+: q)) :
    splitLines l = [l] := by
  induction l with
  | nil => rfl
  | cons c rest ih =>
    cases rest with
    | nil => rfl
    | cons d rest2 =>
      have hcond : ¬ (c = 13 ∧ d = 10) := by
        rintro ⟨hc, hd⟩
        refine h (c :: d :: rest2) (List.suffix_refl _) ?_
        subst hc; subst hd
        exact ⟨rest2, rfl⟩
      have ih' := ih (fun q hq => h q (hq.trans (List.suffix_cons c (d :: rest2))))
      simp only [splitLines]
      rw [if_neg hcond, ih']
      rfl

/-- Splitting lines of `a ++ CRLF ++ b` when no CRLF pair starts inside
`a`: the first line is `a`. -/
lemma splitLines_append (a b : Bytes)
    (h : ∀ q, q <:+ a → q ≠ [] → ¬ ([13, 10] <+: q ++ 13 :: 10 :: b)) :
    splitLines (a ++ 13 :: 10 :: b) = a :: splitLines b := by
  induction a with
  | nil => simp [splitLines]
  | cons c a' ih =>
    cases a' with
    | nil =>
      have hcond : ¬ (c = 13 ∧ (13 : Nat) = 10) := by
        rintro ⟨-, hk⟩
        exact absurd hk (by decide)
      simp only [List.cons_append, List.nil_append, splitLines]
      rw [if_neg hcond]
      simp [consHead, splitLines]
    | cons d a'' =>
      have hcond : ¬ (c = 13 ∧ d = 10) := by
        rintro ⟨hc, hd⟩
        refine h (c :: d :: a'') (List.suffix_refl _) (by simp) ?_
        subst hc; subst hd
        exact ⟨a'' ++ 13 :: 10 :: b, by simp⟩
      have ih' := ih (fun q hq hne => h q (hq.trans (List.suffix_cons c (d :: a''))) hne)
      have hl : (c :: d :: a'') ++ 13 :: 10 :: b = c :: d :: (a'' ++ 13 :: 10 :: b) := by
        simp
      rw [hl]
      simp only [splitLines]
      rw [if_neg hcond]
      have hl2 : d :: (a'' ++ 13 :: 10 :: b) = (d :: a'') ++ 13 :: 10 :: b := by simp
      rw [hl2, ih']
      rfl

/-- Every nonempty suffix of the concrete 200-header prefix either starts
with a byte other than 13 or is the status-line CRLF followed by `C`. -/
lemma hdrPre_tails_fact :
    ∀ q1 ∈ hdrPre.tails, q1 ≠ [] → (q1.head? ≠ some 13 ∨ q1.take 3 = [13, 10, 67]) := by
  decide

/-- No byte of the status line is 13. -/
lemma statusOK_tails_fact : ∀ q ∈ statusOK.tails, q ≠ [] → q.head? ≠ some 13 := by
  decide

/-- No byte of the `Content-Type: ` header name is 13. -/
lemma ctHeader_tails_fact : ∀ q ∈ ctHeader.tails, q ≠ [] → q.head? ≠ some 13 := by
  decide

/-- When the mimetype holds no CRLF pair, no blank line starts inside the
header block of a 200 response. -/
lemma header_suffix_safe (mt post : Bytes)
    (hmt : ∀ q, q <:+ mt → ¬ ([13, 10] <+: q)) :
    ∀ q, q <:+ hdrPre ++ mt → q ≠ [] → ¬ (blankLine <+: q ++ blankLine ++ post) := by
  intro q hq hne hpre
  rcases suffix_append_cases q hdrPre mt hq with hqmt | ⟨q1, hq1, hq1ne, heq⟩
  · cases q with
    | nil => exact hne rfl
    | cons x q' =>
      cases q' with
      | nil =>
        have h2 : [13, 10, 13, 10] <+: x :: 13 :: 10 :: 13 :: 10 :: post := by
          simpa [blankLine, List.append_assoc] using hpre
        rcases List.cons_prefix_cons.mp h2 with ⟨-, h3⟩
        rcases List.cons_prefix_cons.mp h3 with ⟨hk, -⟩
        exact absurd hk (by decide)
      | cons y q'' =>
        have h2 : [13, 10, 13, 10] <+: x :: y :: (q'' ++ [13, 10, 13, 10] ++ post) := by
          simpa [blankLine, List.append_assoc] using hpre
        rcases List.cons_prefix_cons.mp h2 with ⟨ha, h3⟩
        rcases List.cons_prefix_cons.mp h3 with ⟨hb, -⟩
        refine hmt (x :: y :: q'') hqmt ?_
        rw [← ha, ← hb]
        exact ⟨q'', rfl⟩
  · subst heq
    rcases hdrPre_tails_fact q1 ((List.mem_tails _ _).mpr hq1) hq1ne with hhead | htake
    · refine head_ne_13_no_pair q1 (mt ++ blankLine ++ post) hhead hq1ne ?_
      have h12 : [13, 10] <+: blankLine := ⟨[13, 10], rfl⟩
      have h13 := h12.trans hpre
      simpa [List.append_assoc] using h13
    · obtain ⟨t, ht⟩ := take3_eq q1 13 10 67 htake
      subst ht
      have h2 : [13, 10, 13, 10] <+:
          13 :: 10 :: 67 :: (t ++ mt ++ [13, 10, 13, 10] ++ post) := by
        simpa [blankLine, List.append_assoc] using hpre
      rcases List.cons_prefix_cons.mp h2 with ⟨-, h3⟩
      rcases List.cons_prefix_cons.mp h3 with ⟨-, h4⟩
      rcases List.cons_prefix_cons.mp h4 with ⟨hk, -⟩
      exact absurd hk (by decide)

/-- The 200 response is the header block, the blank line and the body. -/
lemma response_ok_decomp (body mt : Bytes) :
    response_ok body mt = (hdrPre ++ mt) ++ blankLine ++ body := by
  simp [response_ok, crlfJoin, hdrPre, statusOK, ctHeader, blankLine, crlf,
    List.append_assoc]

/-- Splitting the header block of a 200 response into lines gives the
status line and the Content-Type line. -/
lemma splitLines_header (mt : Bytes)
    (hmt : ∀ q, q <:+ mt → ¬ ([13, 10] <+: q)) :
    splitLines (hdrPre ++ mt) = [statusOK, ctHeader ++ mt] := by
  have hs : ∀ q, q <:+ statusOK → q ≠ [] →
      ¬ ([13, 10] <+: q ++ 13 :: 10 :: (ctHeader ++ mt)) := by
    intro q hq hne
    exact head_ne_13_no_pair q _ (statusOK_tails_fact q ((List.mem_tails _ _).mpr hq) hne) hne
  have hc : ∀ q, q <:+ ctHeader ++ mt → ¬ ([13, 10] <+: q) := by
    intro q hq
    rcases suffix_append_cases q ctHeader mt hq with hqm | ⟨q1, hq1, hne, heq⟩
    · exact hmt q hqm
    · subst heq
      exact head_ne_13_no_pair q1 mt
        (ctHeader_tails_fact q1 ((List.mem_tails _ _).mpr hq1) hne) hne
  have h1 : hdrPre ++ mt = statusOK ++ 13 :: 10 :: (ctHeader ++ mt) := by
    simp [hdrPre, crlf, List.append_assoc]
  rw [h1, splitLines_append _ _ hs, splitLines_single _ hc]

/-- The Content-Type line built from a mimetype reads back as that
mimetype. -/
lemma contentTypeOf_value (mt : Bytes) : contentTypeOf [ctHeader ++ mt] = some mt := by
  have h14 : (ctHeader ++ mt).take 14 = ctHeader :=
    List.take_left' (show ctHeader.length = 14 by decide)
  have hb : ((ctHeader ++ mt).take 14 == ctHeader) = true := by
    rw [h14]; simp
  simp [contentTypeOf, List.find?, hb,
    List.drop_left' (show ctHeader.length = 14 by decide)]

/-- C7 counterexample: a mimetype consisting of the four bytes CRLF CRLF
shifts the first blank line of the built response, so the structural
reading recovers neither the Content-Type value nor the body. -/
theorem C7_counterexample :
    parseResponse (response_ok (utf8Encode "B") (crlf ++ crlf)) ≠
      some (utf8Encode "HTTP/1.1 200 OK", some (crlf ++ crlf), utf8Encode "B") := by
  decide

/-- C7 amended: for every body and every mimetype whose bytes contain no
CRLF pair, the structural reading of `response_ok body mimetype` recovers
the 200 status line, the same Content-Type value and the same body. -/
theorem C7_amended_round_trip (body mimetype : Bytes)
    (h : ∀ q, q <:+ mimetype → ¬ ([13, 10] <+: q)) :
    parseResponse (response_ok body mimetype) =
      some (utf8Encode "HTTP/1.1 200 OK", some mimetype, body) := by
  have hfind : findBlank (response_ok body mimetype) = some (hdrPre ++ mimetype, body) := by
    rw [response_ok_decomp]
    exact findBlank_eq _ _ (header_suffix_safe mimetype body h)
  simp only [parseResponse, hfind, splitLines_header mimetype h, contentTypeOf_value]
  rfl

/-- C7 witness: the round trip evaluated at body `hello` and mimetype
`text/plain`. -/
theorem C7_witness :
    parseResponse (response_ok (utf8Encode "hello") (utf8Encode "text/plain")) =
      some (utf8Encode "HTTP/1.1 200 OK", some (utf8Encode "text/plain"),
        utf8Encode "hello") :=
  C7_amended_round_trip (utf8Encode "hello") (utf8Encode "text/plain")
    (fun q hq =>
      (by decide : ∀ q1 ∈ (utf8Encode "text/plain").tails, ¬ ([13, 10] <+: q1)) q
        ((List.mem_tails _ _).mpr hq))

end Srv
